import Mathlib

/-!
Shallow embedding of the authoritative FPS server core
(shared constants, map generator, physics kernel, player entity,
hit validator, room tick pipeline, wire decoding), translated from the
TypeScript source.  JS numbers are modelled as exact rationals `ℚ`;
32-bit integer masking (`& 0x7fffffff`) is modelled as `% 2^31` on `ℕ`;
the transcendental `Math` primitives (`sin`, `cos`, `sqrt`) and the
non-deterministic `Math.random()` are passed in explicitly as oracle
arguments, so every definition stays computable and every theorem
quantifies over the oracle.
-/

namespace Shooter

/-! ## Shared game constants (shared/src/types.ts, GAME_CONSTANTS) -/

def TICK_RATE : ℚ := 60
def MOVE_SPEED : ℚ := 5
def SPRINT_MULTIPLIER : ℚ := 8/5
def SNEAK_MULTIPLIER : ℚ := 1/2
def JUMP_FORCE : ℚ := 8
def GRAVITY : ℚ := 20
def PLAYER_HEIGHT : ℚ := 9/5
def PLAYER_RADIUS : ℚ := 2/5
def HEAD_HEIGHT : ℚ := 3/10
def MAX_HEALTH : ℚ := 100
def RESPAWN_TIME : ℚ := 2000
def MAP_SIZE : ℚ := 50
def OBSTACLE_COUNT : ℕ := 40
def MAX_LAG_COMPENSATION : ℚ := 400

/-- Weapon definition row of the shared constant table. -/
structure Weapon where
  damage : ℚ
  fireRate : ℚ
  range : ℚ
  spread : ℚ
  automatic : Bool
  bulletCount : ℕ
deriving Repr, DecidableEq

def WEAPONS : List Weapon :=
  [ ⟨25, 400, 100, 1/50, false, 1⟩    -- Pistol
  , ⟨15, 100, 50, 2/25, true, 1⟩      -- SMG
  , ⟨35, 150, 150, 1/100, true, 1⟩    -- Rifle
  , ⟨15, 800, 20, 3/20, false, 8⟩ ]   -- Shotgun

/-- Three-component vector of JS numbers. -/
structure Vec3 where
  x : ℚ
  y : ℚ
  z : ℚ
deriving Repr, DecidableEq

/-! ## Map generator (server/src/physics.ts, generateObstacles) -/

/-- Axis-aligned obstacle box, as in the server physics module. -/
structure Obstacle where
  x : ℚ
  z : ℚ
  width : ℚ
  height : ℚ
  depth : ℚ
deriving Repr, DecidableEq

/-- One step of the seeded linear congruential generator:
`s = (s * 1103515245 + 12345) & 0x7fffffff`, with the JS bitmask
modelled as reduction mod `2^31` (exact-integer model). -/
def lcgNext (s : ℕ) : ℕ := (s * 1103515245 + 12345) % 2 ^ 31

/-- The value a draw returns: `s / 0x7fffffff` as an exact rational. -/
def lcgFloat (s : ℕ) : ℚ := (s : ℚ) / 0x7fffffff

/-- The random-box loop of `generateObstacles`: produces `n` boxes,
each consuming five draws in order (width, height, depth, x, z),
threading the LCG state; returns the boxes and the final state. -/
def genBoxes : ℕ → ℕ → List Obstacle × ℕ
  | 0, s => ([], s)
  | n + 1, s =>
    let s1 := lcgNext s
    let width := 1 + lcgFloat s1 * 4
    let s2 := lcgNext s1
    let height := 2 + lcgFloat s2 * 6
    let s3 := lcgNext s2
    let depth := 1 + lcgFloat s3 * 4
    let s4 := lcgNext s3
    let x := (lcgFloat s4 - 1/2) * (MAP_SIZE - width)
    let s5 := lcgNext s4
    let z := (lcgFloat s5 - 1/2) * (MAP_SIZE - depth)
    let rest := genBoxes n s5
    (⟨x, z, width, height, depth⟩ :: rest.1, rest.2)

/-- The four boundary walls, pushed in source order:
north, south, east, west. -/
def boundaryWalls : List Obstacle :=
  [ ⟨0, MAP_SIZE / 2, MAP_SIZE, 5, 1⟩
  , ⟨0, -(MAP_SIZE / 2), MAP_SIZE, 5, 1⟩
  , ⟨MAP_SIZE / 2, 0, 1, 5, MAP_SIZE⟩
  , ⟨-(MAP_SIZE / 2), 0, 1, 5, MAP_SIZE⟩ ]

/-- `generateObstacles(seed)`: 40 seeded random boxes followed by the
four boundary walls. -/
def generateObstacles (seed : ℕ) : List Obstacle :=
  (genBoxes OBSTACLE_COUNT seed).1 ++ boundaryWalls

/-- `k`-fold iterate of the LCG state update. -/
def lcgIter : ℕ → ℕ → ℕ
  | 0, s => s
  | k + 1, s => lcgNext (lcgIter k s)

/-- Reference algorithm, written from the spec's words: draw number `k`
(0-based) is the float produced after `k + 1` LCG state updates from the
seed; box `i` consumes draws `5i .. 5i+4` in order width, height, depth,
x, z; the box list is followed by the walls north, south, east, west. -/
def specDraw (seed k : ℕ) : ℚ := lcgFloat (lcgIter (k + 1) seed)

/-- Reference box `i` of the spec algorithm. -/
def specBox (seed i : ℕ) : Obstacle :=
  let w := 1 + specDraw seed (5 * i) * 4
  let h := 2 + specDraw seed (5 * i + 1) * 6
  let d := 1 + specDraw seed (5 * i + 2) * 4
  let x := (specDraw seed (5 * i + 3) - 1/2) * (MAP_SIZE - w)
  let z := (specDraw seed (5 * i + 4) - 1/2) * (MAP_SIZE - d)
  ⟨x, z, w, h, d⟩

/-- Reference obstacle sequence of the spec algorithm. -/
def specObstacles (seed : ℕ) : List Obstacle :=
  (List.range OBSTACLE_COUNT).map (specBox seed) ++ boundaryWalls

/-! ## Physics kernel (server/src/physics.ts) -/

/-- AABB-vs-player collision test against one obstacle
(`checkObstacleCollision`). -/
def checkObstacleCollision (x y z radius height : ℚ) (obstacle : Obstacle) : Bool :=
  let halfW := obstacle.width / 2
  let halfD := obstacle.depth / 2
  let closestX := max (obstacle.x - halfW) (min x (obstacle.x + halfW))
  let closestZ := max (obstacle.z - halfD) (min z (obstacle.z + halfD))
  let distX := x - closestX
  let distZ := z - closestZ
  let distSq := distX * distX + distZ * distZ
  if distSq < radius * radius then
    decide (y < obstacle.height ∧ y + height > 0)
  else
    false

/-- Collision test against every obstacle (`checkCollision`). -/
def checkCollision (x y z radius height : ℚ) (obstacles : List Obstacle) : Bool :=
  obstacles.any (checkObstacleCollision x y z radius height)

/-- Ground height lookup (`getGroundHeight`): always 0 in the source. -/
def getGroundHeight (_x _z : ℚ) (_obstacles : List Obstacle) : ℚ := 0

/-- Result record of `applyPhysics`. -/
structure PhysicsResult where
  position : Vec3
  velocity : Vec3
  grounded : Bool
deriving Repr, DecidableEq

/-- One physics step (`applyPhysics`): gravity, candidate position, axis
by axis collision resolution (X, then Z, then Y with ground plane), and
the map-bounds clamp. -/
def applyPhysics (position velocity : Vec3) (deltaTime : ℚ)
    (obstacles : List Obstacle) : PhysicsResult :=
  let radius := PLAYER_RADIUS
  let height := PLAYER_HEIGHT
  let vy1 := velocity.y - GRAVITY * deltaTime
  let newX0 := position.x + velocity.x * deltaTime
  let newY0 := position.y + vy1 * deltaTime
  let newZ0 := position.z + velocity.z * deltaTime
  let collX := checkCollision newX0 position.y position.z radius height obstacles
  let newX1 := if collX then position.x else newX0
  let vxf := if collX then 0 else velocity.x
  let collZ := checkCollision newX1 position.y newZ0 radius height obstacles
  let newZ1 := if collZ then position.z else newZ0
  let vzf := if collZ then 0 else velocity.z
  let groundY := getGroundHeight newX1 newZ1 obstacles
  let onGround := decide (newY0 ≤ groundY)
  let collY := checkCollision newX1 newY0 newZ1 radius height obstacles
  let newY1 := if onGround then groundY else if collY then position.y else newY0
  let vyf := if onGround then 0 else if collY then 0 else vy1
  let grounded := onGround
  let halfMap := MAP_SIZE / 2 - radius
  let newX2 := max (-halfMap) (min halfMap newX1)
  let newZ2 := max (-halfMap) (min halfMap newZ1)
  ⟨⟨newX2, newY1, newZ2⟩, ⟨vxf, vyf, vzf⟩, grounded⟩

/-! ## Player entity (server/src/Player.ts) -/

def HISTORY_CAPACITY : ℕ := 300

/-- Client input record (shared `InputData`). -/
structure InputData where
  seq : ℕ
  forward : Bool
  backward : Bool
  left : Bool
  right : Bool
  jump : Bool
  sprint : Bool
  sneak : Bool
  shoot : Bool
  weapon : ℕ
  yaw : ℚ
  pitch : ℚ
  timestamp : ℚ
deriving Repr, DecidableEq

/-- Per-player server state, including the circular history buffer.
The four `Float32Array`/`Float64Array` history arrays are modelled as
total functions on indices; only indices `< HISTORY_CAPACITY` are ever
written or read. -/
structure Player where
  id : ℕ
  x : ℚ
  y : ℚ
  z : ℚ
  vx : ℚ
  vy : ℚ
  vz : ℚ
  yaw : ℚ
  pitch : ℚ
  health : ℚ
  isDead : Bool
  respawnTime : ℚ
  score : ℚ
  kills : ℕ
  deaths : ℕ
  weapon : ℕ
  isShooting : Bool
  lastShootTime : ℚ
  lastProcessedInput : ℕ
  grounded : Bool
  historyX : ℕ → ℚ
  historyY : ℕ → ℚ
  historyZ : ℕ → ℚ
  historyTime : ℕ → ℚ
  historyHead : ℕ
  historySize : ℕ

/-- `Player.processInput`: dead players return immediately; otherwise
update rotation, weapon and shooting state, derive the movement
velocity from the WASD flags (normalised when diagonal, rotated by yaw,
scaled by sprint/sneak speed), handle jump, run one physics step, and
record `lastProcessedInput = input.seq`.  The JS `Math.sin`, `Math.cos`
and `Math.sqrt` primitives are the oracle arguments. -/
def processInput (sinQ cosQ sqrtQ : ℚ → ℚ) (p : Player) (input : InputData)
    (deltaTime : ℚ) (obstacles : List Obstacle) : Player :=
  if p.isDead then p
  else
    let speed := if input.sprint then MOVE_SPEED * SPRINT_MULTIPLIER
      else if input.sneak then MOVE_SPEED * SNEAK_MULTIPLIER
      else MOVE_SPEED
    let dx : ℚ := (if input.right then 1 else 0) - (if input.left then 1 else 0)
    let dz : ℚ := (if input.forward then 1 else 0) - (if input.backward then 1 else 0)
    let len := sqrtQ (dx * dx + dz * dz)
    let dx1 := if dx ≠ 0 ∨ dz ≠ 0 then dx / len else dx
    let dz1 := if dx ≠ 0 ∨ dz ≠ 0 then dz / len else dz
    let sin := sinQ input.yaw
    let cos := cosQ input.yaw
    let moveX := (dx1 * cos + dz1 * sin) * speed
    let moveZ := (-dx1 * sin + dz1 * cos) * speed
    let vy0 := if input.jump ∧ p.grounded then JUMP_FORCE else p.vy
    let result := applyPhysics ⟨p.x, p.y, p.z⟩ ⟨moveX, vy0, moveZ⟩ deltaTime obstacles
    { p with
      yaw := input.yaw
      pitch := input.pitch
      weapon := input.weapon
      isShooting := input.shoot
      x := result.position.x
      y := result.position.y
      z := result.position.z
      vx := result.velocity.x
      vy := result.velocity.y
      vz := result.velocity.z
      grounded := result.grounded
      lastProcessedInput := input.seq }

/-- `Player.canShoot`: the fire-rate gate.  Returns whether the shot may
proceed together with the updated player (a successful gate records
`lastShootTime = currentTime`; a failed gate changes nothing). -/
def canShoot (p : Player) (currentTime : ℚ) : Bool × Player :=
  if p.isDead then (false, p)
  else if !p.isShooting then (false, p)
  else
    match WEAPONS[p.weapon]? with
    | none => (false, p)
    | some weaponConfig =>
      if currentTime - p.lastShootTime ≥ weaponConfig.fireRate then
        (true, { p with lastShootTime := currentTime })
      else
        (false, p)

/-- `Player.takeDamage`: returns whether the hit killed, together with
the updated player. -/
def takeDamage (p : Player) (damage : ℚ) : Bool × Player :=
  if p.isDead then (false, p)
  else
    let health1 := p.health - damage
    if health1 ≤ 0 then
      (true, { p with health := 0, isDead := true, deaths := p.deaths + 1 })
    else
      (false, { p with health := health1 })

/-- `Player.getEyePosition`. -/
def getEyePosition (p : Player) : Vec3 :=
  ⟨p.x, p.y + PLAYER_HEIGHT - 1/5, p.z⟩

/-- `Player.getLookDirection` with the `Math` oracle. -/
def getLookDirection (sinQ cosQ : ℚ → ℚ) (p : Player) : Vec3 :=
  ⟨sinQ p.yaw * cosQ p.pitch, -(sinQ p.pitch), cosQ p.yaw * cosQ p.pitch⟩

/-- `Player.saveHistory`: append the current position at `historyHead`,
advance the head mod capacity, and grow `historySize` up to capacity. -/
def saveHistory (p : Player) (timestamp : ℚ) : Player :=
  let idx := p.historyHead
  { p with
    historyX := Function.update p.historyX idx p.x
    historyY := Function.update p.historyY idx p.y
    historyZ := Function.update p.historyZ idx p.z
    historyTime := Function.update p.historyTime idx timestamp
    historyHead := (p.historyHead + 1) % HISTORY_CAPACITY
    historySize := if p.historySize < HISTORY_CAPACITY then p.historySize + 1
      else p.historySize }

/-- The backward scan of `Player.getPositionAt`, one recursive call per
loop iteration; `fuel` is the number of iterations left
(`historySize - 1` at the start), `idx` the physical index under
scrutiny.  Falling out of the loop (or taking the early `break`) returns
the sample at the current index. -/
def historyScan (p : Player) (timestamp : ℚ) : ℕ → ℕ → Vec3
  | 0, idx => ⟨p.historyX idx, p.historyY idx, p.historyZ idx⟩
  | fuel + 1, idx =>
    let currIdx := idx
    let prevIdx := (idx + HISTORY_CAPACITY - 1) % HISTORY_CAPACITY
    let currTime := p.historyTime currIdx
    let prevTime := p.historyTime prevIdx
    if timestamp ≤ currTime ∧ timestamp ≥ prevTime then
      let t := (timestamp - prevTime) / (currTime - prevTime)
      ⟨p.historyX prevIdx + (p.historyX currIdx - p.historyX prevIdx) * t,
       p.historyY prevIdx + (p.historyY currIdx - p.historyY prevIdx) * t,
       p.historyZ prevIdx + (p.historyZ currIdx - p.historyZ prevIdx) * t⟩
    else if currTime < timestamp - 1000 then
      ⟨p.historyX prevIdx, p.historyY prevIdx, p.historyZ prevIdx⟩
    else
      historyScan p timestamp fuel prevIdx

/-- `Player.getPositionAt`: the lag-compensation history query. -/
def getPositionAt (p : Player) (timestamp : ℚ) : Option Vec3 :=
  if p.historySize = 0 then none
  else
    let newest := (p.historyHead + HISTORY_CAPACITY - 1) % HISTORY_CAPACITY
    if timestamp ≥ p.historyTime newest then
      some ⟨p.historyX newest, p.historyY newest, p.historyZ newest⟩
    else
      some (historyScan p timestamp (p.historySize - 1) newest)

/-- `Player.getState`: the per-player entry of a snapshot. -/
structure PlayerState where
  id : ℕ
  x : ℚ
  y : ℚ
  z : ℚ
  vx : ℚ
  vy : ℚ
  vz : ℚ
  yaw : ℚ
  pitch : ℚ
  health : ℚ
  weapon : ℕ
  isShooting : Bool
  isDead : Bool
  score : ℚ
deriving Repr, DecidableEq

def getState (p : Player) : PlayerState :=
  ⟨p.id, p.x, p.y, p.z, p.vx, p.vy, p.vz, p.yaw, p.pitch, p.health,
    p.weapon, p.isShooting, p.isDead, p.score⟩

/-- Hit event accumulated during a tick. -/
structure HitEvent where
  shooterId : ℕ
  targetId : ℕ
  damage : ℚ
  headshot : Bool
deriving Repr, DecidableEq

/-- World snapshot as assembled by `Room.broadcastSnapshot` /
`encodeSnapshot` for one recipient. -/
structure WorldSnapshot where
  tick : ℕ
  timestamp : ℚ
  players : List PlayerState
  hits : List HitEvent
  lastProcessedInput : ℕ
deriving Repr, DecidableEq

/-- The snapshot `Room.broadcastSnapshot` sends to player `p`: shared
world state personalised only by `p.lastProcessedInput`. -/
def broadcastSnapshotFor (tick : ℕ) (timestamp : ℚ) (players : List Player)
    (hits : List HitEvent) (p : Player) : WorldSnapshot :=
  ⟨tick, timestamp, players.map getState, hits, p.lastProcessedInput⟩

/-! ## Ray tests (Room.raySphereIntersect / checkPlayerHit, physics.raycast) -/

/-- Quadratic coefficient `a` of `Room.raySphereIntersect`. -/
def rayQuadA (direction : Vec3) : ℚ :=
  direction.x * direction.x + direction.y * direction.y + direction.z * direction.z

/-- Quadratic coefficient `b` of `Room.raySphereIntersect`. -/
def rayQuadB (origin center direction : Vec3) : ℚ :=
  2 * ((origin.x - center.x) * direction.x + (origin.y - center.y) * direction.y +
    (origin.z - center.z) * direction.z)

/-- Quadratic coefficient `c` of `Room.raySphereIntersect`. -/
def rayQuadC (origin center : Vec3) (radius : ℚ) : ℚ :=
  (origin.x - center.x) * (origin.x - center.x) +
  (origin.y - center.y) * (origin.y - center.y) +
  (origin.z - center.z) * (origin.z - center.z) - radius * radius

/-- Discriminant of `Room.raySphereIntersect`. -/
def rayDisc (origin center direction : Vec3) (radius : ℚ) : ℚ :=
  rayQuadB origin center direction * rayQuadB origin center direction -
    4 * rayQuadA direction * rayQuadC origin center radius

/-- `Room.raySphereIntersect` with the `Math.sqrt` oracle: `none` is the
source's `{hit:false, distance:Infinity}` (the Infinity is never
consumed downstream), `some t` the hit at distance `t`. -/
def raySphereIntersect (sqrtQ : ℚ → ℚ) (origin direction center : Vec3)
    (radius maxDistance : ℚ) : Option ℚ :=
  let a := rayQuadA direction
  let b := rayQuadB origin center direction
  let discriminant := rayDisc origin center direction radius
  if discriminant < 0 then none
  else
    let t := (-b - sqrtQ discriminant) / (2 * a)
    if 0 < t ∧ t < maxDistance then some t else none

/-- The candidate distance the source computes:
`t = (-b - Math.sqrt(discriminant)) / (2a)` — the smaller of the two
quadratic roots whenever the oracle returns the true square root. -/
def raySmallerRoot (sqrtQ : ℚ → ℚ) (origin direction center : Vec3)
    (radius : ℚ) : ℚ :=
  (-(rayQuadB origin center direction) -
      sqrtQ (rayDisc origin center direction radius)) /
    (2 * rayQuadA direction)

/-- `Room.checkPlayerHit`: head sphere first (headshot), then body
sphere; `some (distance, headshot)` on a hit. -/
def checkPlayerHit (sqrtQ : ℚ → ℚ) (origin direction target : Vec3)
    (maxDistance : ℚ) : Option (ℚ × Bool) :=
  let bodyCenter : Vec3 := ⟨target.x, target.y + PLAYER_HEIGHT / 2, target.z⟩
  let headCenter : Vec3 := ⟨target.x, target.y + PLAYER_HEIGHT - HEAD_HEIGHT, target.z⟩
  match raySphereIntersect sqrtQ origin direction headCenter HEAD_HEIGHT maxDistance with
  | some d => some (d, true)
  | none =>
    match raySphereIntersect sqrtQ origin direction bodyCenter
        (PLAYER_RADIUS * (3/2)) maxDistance with
    | some d => some (d, false)
    | none => none

/-- Result record of the obstacle ray march (`raycast`). -/
structure RaycastHit where
  hit : Bool
  point : Vec3
  distance : ℚ
  obstacleHit : Bool
deriving Repr, DecidableEq

/-- Point-inside-obstacle test of the ray march body. -/
def insideObstacle (x y z : ℚ) (obs : Obstacle) : Bool :=
  decide (x ≥ obs.x - obs.width / 2 ∧ x ≤ obs.x + obs.width / 2 ∧
    z ≥ obs.z - obs.depth / 2 ∧ z ≤ obs.z + obs.depth / 2 ∧
    y ≥ 0 ∧ y ≤ obs.height)

/-- The fixed-step march loop of `raycast`: advance by one step, check
ground then obstacles, reporting distance `i × 0.5` at loop index `i`. -/
def rayMarch (obstacles : List Obstacle) (dx dy dz maxDistance : ℚ) :
    ℕ → ℕ → ℚ → ℚ → ℚ → RaycastHit
  | 0, _, x, y, z => ⟨false, ⟨x, y, z⟩, maxDistance, false⟩
  | fuel + 1, i, x, y, z =>
    let x1 := x + dx
    let y1 := y + dy
    let z1 := z + dz
    if y1 < 0 then
      ⟨true, ⟨x1, 0, z1⟩, (i : ℚ) * (1/2), false⟩
    else
      match obstacles.find? (insideObstacle x1 y1 z1) with
      | some _ => ⟨true, ⟨x1, y1, z1⟩, (i : ℚ) * (1/2), true⟩
      | none => rayMarch obstacles dx dy dz maxDistance fuel (i + 1) x1 y1 z1

/-- `raycast`: coarse 0.5-unit ray march against ground and obstacles,
with `steps = ceil(maxDistance / 0.5)` iterations. -/
def raycast (origin direction : Vec3) (maxDistance : ℚ)
    (obstacles : List Obstacle) : RaycastHit :=
  let step : ℚ := 1/2
  let steps := (⌈maxDistance / step⌉).toNat
  rayMarch obstacles (direction.x * step) (direction.y * step) (direction.z * step)
    maxDistance steps 0 origin.x origin.y origin.z

/-! ## Per-bullet hit resolution (Room.handleShoot body) -/

/-- The nearest-candidate loop of one bullet in `Room.handleShoot`:
walk the room's players in order, skip the shooter and dead targets,
rewind each target through its history ring, test the ray against the
rewound hitboxes bounded by `weapon.range`, and keep the nearest hit
(`hitDistance` starts at `weapon.range`). -/
def nearestTargetHit (sqrtQ : ℚ → ℚ) (shooterId : ℕ) (origin direction : Vec3)
    (range rewindTime : ℚ) (players : List Player) : Option Player × ℚ × Bool :=
  players.foldl
    (fun acc target =>
      if target.id = shooterId ∨ target.isDead then acc
      else
        match getPositionAt target rewindTime with
        | none => acc
        | some pastPos =>
          match checkPlayerHit sqrtQ origin direction pastPos range with
          | some (d, hs) => if d < acc.2.1 then (some target, d, hs) else acc
          | none => acc)
    (none, range, false)

/-- One bullet of `Room.handleShoot` after origin and (spread-perturbed)
direction are fixed: resolve the nearest player hit, block it when the
obstacle ray march reports a nearer hit, then apply damage and emit the
`HitEvent`.  Returns the updated player list and the emitted event. -/
def fireBullet (sqrtQ : ℚ → ℚ) (shooterId : ℕ) (origin direction : Vec3)
    (weapon : Weapon) (rewindTime : ℚ) (players : List Player)
    (obstacles : List Obstacle) : List Player × Option HitEvent :=
  let res := nearestTargetHit sqrtQ shooterId origin direction weapon.range
    rewindTime players
  let hitDistance := res.2.1
  let isHeadshot := res.2.2
  let obstacleHit := raycast origin direction hitDistance obstacles
  let hitPlayer := if obstacleHit.hit ∧ obstacleHit.distance < hitDistance
    then none else res.1
  match hitPlayer with
  | none => (players, none)
  | some target =>
    let damage := if isHeadshot then weapon.damage * 2 else weapon.damage
    let target1 := (takeDamage target damage).2
    (players.map (fun q => if q.id = target.id then target1 else q),
      some ⟨shooterId, target.id, damage, isHeadshot⟩)

/-! ## Respawns (Room.processRespawns, FreeForAllMode.getSpawnPosition) -/

/-- `FreeForAllMode.getSpawnPosition` with the two `Math.random()` draws
passed explicitly. -/
def getSpawnPosition (r1 r2 : ℚ) : Vec3 :=
  let halfMap := MAP_SIZE / 2 - 2
  ⟨(r1 - 1/2) * halfMap * 2, 0, (r2 - 1/2) * halfMap * 2⟩

/-- The per-player body of `Room.processRespawns`: an eligible dead
player is teleported to the mode's spawn position, healed to
`MAX_HEALTH`, and has `isDead` and `respawnTime` cleared. -/
def processRespawnStep (now r1 r2 : ℚ) (p : Player) : Player :=
  if p.isDead ∧ p.respawnTime > 0 ∧ now ≥ p.respawnTime then
    let pos := getSpawnPosition r1 r2
    { p with
      x := pos.x
      y := pos.y
      z := pos.z
      health := MAX_HEALTH
      isDead := false
      respawnTime := 0 }
  else p

/-! ## Tick-loop input drain (Room.gameTick) -/

/-- The per-player input drain of `Room.gameTick`: each queued input is
applied through `Player.processInput` with the fixed tick delta.  The
sub-tick shoot handling touches only the shooter's `lastShootTime` and
other players' combat state, so it does not affect the drained player's
`lastProcessedInput`, `isDead` or transform and is not repeated here. -/
def drainInputs (sinQ cosQ sqrtQ : ℚ → ℚ) (p : Player) (inputs : List InputData)
    (deltaTime : ℚ) (obstacles : List Obstacle) : Player :=
  inputs.foldl (fun q input => processInput sinQ cosQ sqrtQ q input deltaTime obstacles) p

/-! ## Fire-rate gate runs (Room.handleShoot / Player.canShoot) -/

/-- One shoot attempt as the tick loop produces it: `Player.processInput`
has just set the player's `weapon` and `isShooting` from the input, and
`Room.handleShoot` calls `canShoot(Date.now())`. -/
structure ShotCall where
  weapon : ℕ
  shooting : Bool
  time : ℚ

/-- Apply one shoot attempt to a player. -/
def shotStep (p : Player) (c : ShotCall) : Bool × Player :=
  canShoot { p with weapon := c.weapon, isShooting := c.shooting } c.time

/-- Run a sequence of shoot attempts, counting successes. -/
def runCalls : Player → List ShotCall → Player × ℕ
  | p, [] => (p, 0)
  | p, c :: cs =>
    let r := shotStep p c
    let rest := runCalls r.2 cs
    (rest.1, (if r.1 then 1 else 0) + rest.2)

/-! ## Wire decoding (server/src/protocol.ts, server/src/index.ts) -/

/-- JS `DataView.getUint8`: reading past the end of the buffer throws a
`RangeError`, modelled as `Except.error`. -/
def dvGetUint8 (buf : List ℕ) (offset : ℕ) : Except Unit ℕ :=
  match buf.get? offset with
  | some b => .ok b
  | none => .error ()

/-- JS `DataView.getUint32` bounds behaviour: needs 4 readable bytes. -/
def dvGetUint32 (buf : List ℕ) (offset : ℕ) : Except Unit ℕ :=
  if offset + 4 ≤ buf.length then
    .ok ((buf.drop offset).take 4 |>.foldr (fun b acc => acc * 256 + b) 0)
  else .error ()

/-- JS `DataView.getFloat32` bounds behaviour; the IEEE bit decoding is
the oracle `f32`. -/
def dvGetFloat32 (f32 : List ℕ → ℚ) (buf : List ℕ) (offset : ℕ) : Except Unit ℚ :=
  if offset + 4 ≤ buf.length then .ok (f32 ((buf.drop offset).take 4))
  else .error ()

/-- JS `DataView.getFloat64` bounds behaviour; the IEEE bit decoding is
the oracle `f64`. -/
def dvGetFloat64 (f64 : List ℕ → ℚ) (buf : List ℕ) (offset : ℕ) : Except Unit ℚ :=
  if offset + 8 ≤ buf.length then .ok (f64 ((buf.drop offset).take 8))
  else .error ()

/-- `decodeInput`: fixed-offset reads
`[type:u8][seq:u32][flags:u8][weapon:u8][yaw:f32][pitch:f32][timestamp:f64]`
with no bounds checking of its own — an out-of-range `DataView` read
throws, which the `Except` monad records. -/
def decodeInput (f32 f64 : List ℕ → ℚ) (buf : List ℕ) : Except Unit InputData := do
  let seq ← dvGetUint32 buf 1
  let flags ← dvGetUint8 buf 5
  let weapon ← dvGetUint8 buf 6
  let yaw ← dvGetFloat32 f32 buf 7
  let pitch ← dvGetFloat32 f32 buf 11
  let timestamp ← dvGetFloat64 f64 buf 15
  .ok
    { seq := seq
      forward := flags &&& 1 ≠ 0
      backward := flags &&& 2 ≠ 0
      left := flags &&& 4 ≠ 0
      right := flags &&& 8 ≠ 0
      jump := flags &&& 16 ≠ 0
      sprint := flags &&& 32 ≠ 0
      sneak := flags &&& 64 ≠ 0
      shoot := flags &&& 128 ≠ 0
      weapon := weapon
      yaw := yaw
      pitch := pitch
      timestamp := timestamp }

/-- The INPUT branch of the `message` handler in `index.ts`: the
connection's queue state is a list of inputs; `decodeInput` is called
with no surrounding `try`/`catch`, so a decoding `RangeError`
propagates out of the handler (modelled by the `Except` error). -/
def handleInputMessage (f32 f64 : List ℕ → ℚ) (playerId : ℕ)
    (queue : List InputData) (buf : List ℕ) : Except Unit (List InputData) :=
  if playerId = 0 then .ok queue
  else do
    let input ← decodeInput f32 f64 buf
    .ok (queue ++ [input])

/-! ## Logical view of the history ring (specification side) -/

/-- Physical index of logical history slot `ℓ` (0 = oldest stored,
`historySize - 1` = newest). -/
def histPhys (p : Player) (ℓ : ℕ) : ℕ :=
  (p.historyHead + HISTORY_CAPACITY - p.historySize + ℓ) % HISTORY_CAPACITY

/-- Timestamp of logical history slot `ℓ`. -/
def histTime (p : Player) (ℓ : ℕ) : ℚ := p.historyTime (histPhys p ℓ)

/-- Stored position of logical history slot `ℓ`. -/
def histSample (p : Player) (ℓ : ℕ) : Vec3 :=
  ⟨p.historyX (histPhys p ℓ), p.historyY (histPhys p ℓ), p.historyZ (histPhys p ℓ)⟩

/-- Componentwise linear interpolation in the form the source computes:
`prev + (curr - prev) * t`. -/
def lerpV (a b : Vec3) (t : ℚ) : Vec3 :=
  ⟨a.x + (b.x - a.x) * t, a.y + (b.y - a.y) * t, a.z + (b.z - a.z) * t⟩

/-- The history timestamps are non-decreasing in logical order. -/
def HistSorted (p : Player) : Prop :=
  ∀ i, i + 1 < p.historySize → histTime p i ≤ histTime p (i + 1)

/-! ## Concrete fixtures for witnesses and counterexamples -/

/-- A freshly constructed player record with the source's field
defaults and an all-zero history ring. -/
def basePlayer : Player :=
  { id := 1, x := 0, y := 0, z := 0, vx := 0, vy := 0, vz := 0,
    yaw := 0, pitch := 0, health := MAX_HEALTH, isDead := false,
    respawnTime := 0, score := 0, kills := 0, deaths := 0, weapon := 0,
    isShooting := false, lastShootTime := 0, lastProcessedInput := 0,
    grounded := false,
    historyX := fun _ => 0, historyY := fun _ => 0, historyZ := fun _ => 0,
    historyTime := fun _ => 0, historyHead := 0, historySize := 0 }

/-- An all-false input with a given sequence number. -/
def idleInput (seq : ℕ) : InputData :=
  { seq := seq, forward := false, backward := false, left := false,
    right := false, jump := false, sprint := false, sneak := false,
    shoot := false, weapon := 0, yaw := 0, pitch := 0, timestamp := 0 }

/-- A trivial stand-in for the `Math` oracles in closed evaluations. -/
def zeroOracle : ℚ → ℚ := fun _ => 0

/-- The Rifle row of the weapon table. -/
def rifleW : Weapon := ⟨35, 150, 150, 1/100, true, 1⟩

/-- A target player standing at (0, 0, 10), with one history sample
recording that position at timestamp 0. -/
def targetAtZ10 : Player :=
  { basePlayer with id := 2, historyZ := fun _ => 10, historyHead := 1, historySize := 1 }

/-- An obstacle centred at (0, z=5), 4 wide, 5 high, 1 deep — between a
shooter at the origin and `targetAtZ10`. -/
def midObstacle : Obstacle := ⟨0, 5, 4, 5, 1⟩

/-! # Theorems -/

/-! ### C3 — map generator matches the reference draw sequence -/

theorem lcgIter_add (a b s : ℕ) : lcgIter a (lcgIter b s) = lcgIter (b + a) s := by
  induction a with
  | zero => rfl
  | succ a ih =>
    show lcgNext (lcgIter a (lcgIter b s)) = lcgIter (b + (a + 1)) s
    rw [ih]
    rfl

theorem specDraw_shift (s k : ℕ) : specDraw (lcgIter 5 s) k = specDraw s (k + 5) := by
  unfold specDraw
  rw [lcgIter_add, (by omega : 5 + (k + 1) = (k + 5) + 1)]

theorem specBox_shift (s i : ℕ) : specBox (lcgIter 5 s) i = specBox s (i + 1) := by
  have h0 : specDraw (lcgIter 5 s) (5 * i) = specDraw s (5 * (i + 1)) := by
    rw [specDraw_shift, (by ring : 5 * i + 5 = 5 * (i + 1))]
  have h1 : specDraw (lcgIter 5 s) (5 * i + 1) = specDraw s (5 * (i + 1) + 1) := by
    rw [specDraw_shift, (by ring : 5 * i + 1 + 5 = 5 * (i + 1) + 1)]
  have h2 : specDraw (lcgIter 5 s) (5 * i + 2) = specDraw s (5 * (i + 1) + 2) := by
    rw [specDraw_shift, (by ring : 5 * i + 2 + 5 = 5 * (i + 1) + 2)]
  have h3 : specDraw (lcgIter 5 s) (5 * i + 3) = specDraw s (5 * (i + 1) + 3) := by
    rw [specDraw_shift, (by ring : 5 * i + 3 + 5 = 5 * (i + 1) + 3)]
  have h4 : specDraw (lcgIter 5 s) (5 * i + 4) = specDraw s (5 * (i + 1) + 4) := by
    rw [specDraw_shift, (by ring : 5 * i + 4 + 5 = 5 * (i + 1) + 4)]
  simp only [specBox, h0, h1, h2, h3, h4]

theorem genBoxes_step (n s : ℕ) :
    genBoxes (n + 1) s =
      (specBox s 0 :: (genBoxes n (lcgIter 5 s)).1, (genBoxes n (lcgIter 5 s)).2) :=
  rfl

theorem genBoxes_eq (n s : ℕ) :
    genBoxes n s = ((List.range n).map (specBox s), lcgIter (5 * n) s) := by
  induction n generalizing s with
  | zero => rfl
  | succ n ih =>
    rw [genBoxes_step, ih (lcgIter 5 s)]
    refine Prod.ext ?_ ?_
    · show specBox s 0 :: (List.range n).map (specBox (lcgIter 5 s)) =
        (List.range (n + 1)).map (specBox s)
      rw [List.range_succ_eq_map]
      simp only [List.map_cons, List.map_map]
      refine congrArg (specBox s 0 :: ·) (List.map_congr_left ?_)
      intro i _
      simp only [Function.comp]
      exact specBox_shift s i
    · show lcgIter (5 * n) (lcgIter 5 s) = lcgIter (5 * (n + 1)) s
      rw [lcgIter_add]
      congr 1
      ring

/-- C3: for every seed, `generateObstacles` is deterministic (it is a
pure function of the seed) and produces exactly the reference sequence:
40 boxes, each consuming five LCG draws in order (width, height, depth,
x, z), followed by the four boundary walls north, south, east, west. -/
theorem generateObstacles_matches_reference (seed : ℕ) :
    generateObstacles seed = specObstacles seed := by
  unfold generateObstacles specObstacles
  rw [genBoxes_eq]

/-! ### C2 — respawn position, health and flags -/

/-- C2 counterexample: a dead player whose respawn time has elapsed is
respawned by `processRespawns` at `y = 0`, not at the claimed `y = 5`
(the `y = 5` drop-in height belongs to `Player.spawn`, which serves
initial joins and game resets, not `FreeForAllMode.getSpawnPosition`). -/
theorem processRespawn_y_zero_counterexample :
    ({ basePlayer with isDead := true, respawnTime := 1 } : Player).isDead = true ∧
      ({ basePlayer with isDead := true, respawnTime := 1 } : Player).respawnTime > 0 ∧
      (2 : ℚ) ≥ ({ basePlayer with isDead := true, respawnTime := 1 } : Player).respawnTime ∧
      (processRespawnStep 2 (1/2) (1/2)
        { basePlayer with isDead := true, respawnTime := 1 }).y = 0 ∧
      (processRespawnStep 2 (1/2) (1/2)
        { basePlayer with isDead := true, respawnTime := 1 }).y ≠ 5 := by
  refine ⟨rfl, by norm_num, by norm_num, ?_, ?_⟩ <;>
    norm_num [processRespawnStep, getSpawnPosition, basePlayer]

/-- C2 (amended): for every dead player with `respawnTime > 0` and
`now ≥ respawnTime` at the respawn phase, the tick teleports the player
to the mode's spawn point — x and z uniform draws mapped over
`[-(MAP_SIZE/2 - 2), +(MAP_SIZE/2 - 2)] = [-23, 23]`, with `y = 0`
(not `y = 5`) — restores health to `MAX_HEALTH`, and clears `isDead`
and `respawnTime`. -/
theorem processRespawn_spec (now r1 r2 : ℚ) (p : Player)
    (hd : p.isDead = true) (ht : p.respawnTime > 0) (hn : now ≥ p.respawnTime)
    (hr1a : 0 ≤ r1) (hr1b : r1 ≤ 1) (hr2a : 0 ≤ r2) (hr2b : r2 ≤ 1) :
    (processRespawnStep now r1 r2 p).x = (r1 - 1/2) * (MAP_SIZE / 2 - 2) * 2 ∧
      (processRespawnStep now r1 r2 p).y = 0 ∧
      (processRespawnStep now r1 r2 p).z = (r2 - 1/2) * (MAP_SIZE / 2 - 2) * 2 ∧
      -23 ≤ (processRespawnStep now r1 r2 p).x ∧
      (processRespawnStep now r1 r2 p).x ≤ 23 ∧
      -23 ≤ (processRespawnStep now r1 r2 p).z ∧
      (processRespawnStep now r1 r2 p).z ≤ 23 ∧
      (processRespawnStep now r1 r2 p).health = MAX_HEALTH ∧
      (processRespawnStep now r1 r2 p).isDead = false ∧
      (processRespawnStep now r1 r2 p).respawnTime = 0 := by
  have hres : processRespawnStep now r1 r2 p =
      { p with
        x := (r1 - 1/2) * (MAP_SIZE / 2 - 2) * 2
        y := 0
        z := (r2 - 1/2) * (MAP_SIZE / 2 - 2) * 2
        health := MAX_HEALTH
        isDead := false
        respawnTime := 0 } := by
    unfold processRespawnStep getSpawnPosition
    rw [if_pos ⟨hd, ht, hn⟩]
  rw [hres]
  refine ⟨rfl, rfl, rfl, ?_, ?_, ?_, ?_, rfl, rfl, rfl⟩ <;>
    · show _ ≤ _
      norm_num [MAP_SIZE]
      linarith

theorem processRespawn_spec_witness :
    ({ basePlayer with isDead := true, respawnTime := 1 } : Player).isDead = true ∧
      ({ basePlayer with isDead := true, respawnTime := 1 } : Player).respawnTime > 0 ∧
      (2 : ℚ) ≥ ({ basePlayer with isDead := true, respawnTime := 1 } : Player).respawnTime ∧
      (0 : ℚ) ≤ 1/4 ∧ (1/4 : ℚ) ≤ 1 ∧ (0 : ℚ) ≤ 3/4 ∧ (3/4 : ℚ) ≤ 1 ∧
      ((processRespawnStep 2 (1/4) (3/4)
          { basePlayer with isDead := true, respawnTime := 1 }).y = 0 ∧
        (processRespawnStep 2 (1/4) (3/4)
          { basePlayer with isDead := true, respawnTime := 1 }).isDead = false) :=
  ⟨rfl, by norm_num, by norm_num, by norm_num, by norm_num, by norm_num, by norm_num,
    (processRespawn_spec 2 (1/4) (3/4) _ rfl (by norm_num) (by norm_num)
      (by norm_num) (by norm_num) (by norm_num) (by norm_num)).2.1,
    (processRespawn_spec 2 (1/4) (3/4) _ rfl (by norm_num) (by norm_num)
      (by norm_num) (by norm_num) (by norm_num) (by norm_num)).2.2.2.2.2.2.2.2.1⟩

/-! ### C1 — snapshot lastProcessedInput vs drained input seqs -/

theorem processInput_alive_effect (sinQ cosQ sqrtQ : ℚ → ℚ) (p : Player)
    (input : InputData) (deltaTime : ℚ) (obstacles : List Obstacle)
    (h : p.isDead = false) :
    (processInput sinQ cosQ sqrtQ p input deltaTime obstacles).lastProcessedInput
        = input.seq ∧
      (processInput sinQ cosQ sqrtQ p input deltaTime obstacles).isDead = false := by
  unfold processInput
  rw [h]
  exact ⟨rfl, rfl⟩

theorem getLast?_getD_cons (x : ℕ) (xs : List ℕ) (d : ℕ) :
    ((x :: xs).getLast?).getD d = (xs.getLast?).getD x := by
  cases xs with
  | nil => rfl
  | cons y ys => rw [List.getLast?_cons_cons]; rfl

/-- C1 counterexample: a dead player's queued input (seq 5) is drained
by the tick but `lastProcessedInput` is not updated (`processInput`
returns before recording it), so the snapshot broadcast to that player
reports 0, not the maximum drained seq 5. -/
theorem drain_dead_snapshot_counterexample :
    (broadcastSnapshotFor 1 0 [{ basePlayer with isDead := true }] []
        (drainInputs zeroOracle zeroOracle zeroOracle
          { basePlayer with isDead := true } [idleInput 5] (1/60) [])).lastProcessedInput
        = 0 ∧
      (idleInput 5).seq = 5 ∧ (0 : ℕ) ≠ 5 := by
  refine ⟨?_, rfl, by norm_num⟩
  show (drainInputs zeroOracle zeroOracle zeroOracle
    { basePlayer with isDead := true } [idleInput 5] (1/60) []).lastProcessedInput = 0
  simp [drainInputs, processInput, basePlayer]

/-- C1 (amended): for a player who is alive while its queue is drained,
the `lastProcessedInput` encoded in the snapshot broadcast at the end of
the tick equals the seq of the last input drained this tick (or the
previously recorded value when the queue was empty); inputs drained
while the player is dead do not update it. -/
theorem drain_snapshot_lastProcessedInput (sinQ cosQ sqrtQ : ℚ → ℚ)
    (deltaTime : ℚ) (obstacles : List Obstacle) (tick : ℕ) (ts : ℚ)
    (world : List Player) (hits : List HitEvent)
    (p : Player) (inputs : List InputData) (h : p.isDead = false) :
    (broadcastSnapshotFor tick ts world hits
        (drainInputs sinQ cosQ sqrtQ p inputs deltaTime obstacles)).lastProcessedInput
      = ((inputs.map InputData.seq).getLast?).getD p.lastProcessedInput := by
  show (drainInputs sinQ cosQ sqrtQ p inputs deltaTime obstacles).lastProcessedInput = _
  induction inputs generalizing p with
  | nil => rfl
  | cons input rest ih =>
    have he := processInput_alive_effect sinQ cosQ sqrtQ p input deltaTime obstacles h
    have hstep : drainInputs sinQ cosQ sqrtQ p (input :: rest) deltaTime obstacles =
        drainInputs sinQ cosQ sqrtQ
          (processInput sinQ cosQ sqrtQ p input deltaTime obstacles) rest deltaTime obstacles := by
      simp [drainInputs]
    rw [hstep, ih _ he.2, he.1, List.map_cons, getLast?_getD_cons]

theorem drain_snapshot_lastProcessedInput_witness :
    basePlayer.isDead = false ∧
      (broadcastSnapshotFor 1 0 [basePlayer] []
          (drainInputs zeroOracle zeroOracle zeroOracle basePlayer
            [idleInput 3, idleInput 9] (1/60) [])).lastProcessedInput
        = (([idleInput 3, idleInput 9].map InputData.seq).getLast?).getD
            basePlayer.lastProcessedInput :=
  ⟨rfl, drain_snapshot_lastProcessedInput zeroOracle zeroOracle zeroOracle (1/60) []
    1 0 [basePlayer] [] basePlayer [idleInput 3, idleInput 9] rfl⟩

/-! ### C4 — ray-vs-sphere test -/

/-- C4 counterexample: with the ray origin at the sphere centre
(origin inside the sphere), radius 1, direction (0,0,1) and
maxDistance 10, the quadratic's smaller **non-negative** root is 1
(`a·1² + b·1 + c = 0`, `0 ≤ 1 < 10`), so the claim predicts a hit — but
the code only forms `t = (−b − √disc)/(2a) = −1` and its `t > 0` gate
fails, so it reports a miss.  The oracle `fun _ => 2` returns exactly
`Math.sqrt 4` at the single discriminant consulted. -/
theorem raySphere_inside_counterexample :
    rayDisc ⟨0, 0, 0⟩ ⟨0, 0, 0⟩ ⟨0, 0, 1⟩ 1 = 4 ∧
      raySphereIntersect (fun _ => 2) ⟨0, 0, 0⟩ ⟨0, 0, 1⟩ ⟨0, 0, 0⟩ 1 10 = none ∧
      rayQuadA ⟨0, 0, 1⟩ * 1 * 1 + rayQuadB ⟨0, 0, 0⟩ ⟨0, 0, 0⟩ ⟨0, 0, 1⟩ * 1 +
        rayQuadC ⟨0, 0, 0⟩ ⟨0, 0, 0⟩ 1 = 0 ∧
      (0 : ℚ) ≤ 1 ∧ (1 : ℚ) < 10 := by
  refine ⟨?_, ?_, ?_, by norm_num, by norm_num⟩
  · norm_num [rayDisc, rayQuadA, rayQuadB, rayQuadC]
  · with_unfolding_all rfl
  · norm_num [rayQuadA, rayQuadB, rayQuadC]

/-- C4 (amended): the ray-sphere test returns a hit exactly when the
discriminant is non-negative and the single candidate
`t = (−b − √disc)/(2a)` satisfies `0 < t < maxDistance`, reporting
distance `t`; when the oracle is a true square root and the direction
is non-degenerate, `t` is a root of the quadratic and is the smaller of
the two roots.  Hence a hit at exactly `maxDistance` (= weapon.range)
is a miss (open interval), and — contrary to the original claim — a ray
whose origin lies strictly inside the sphere (`c < 0`) always misses,
because its smaller root is negative. -/
theorem raySphereIntersect_behavior (sqrtQ : ℚ → ℚ)
    (origin direction center : Vec3) (radius maxDistance : ℚ) :
    (raySphereIntersect sqrtQ origin direction center radius maxDistance =
      if 0 ≤ rayDisc origin center direction radius ∧
          0 < raySmallerRoot sqrtQ origin direction center radius ∧
          raySmallerRoot sqrtQ origin direction center radius < maxDistance
        then some (raySmallerRoot sqrtQ origin direction center radius)
        else none) ∧
    (sqrtQ (rayDisc origin center direction radius) *
          sqrtQ (rayDisc origin center direction radius) =
        rayDisc origin center direction radius →
      0 ≤ sqrtQ (rayDisc origin center direction radius) →
      rayQuadA direction ≠ 0 →
      rayQuadA direction * raySmallerRoot sqrtQ origin direction center radius *
            raySmallerRoot sqrtQ origin direction center radius +
          rayQuadB origin center direction *
            raySmallerRoot sqrtQ origin direction center radius +
          rayQuadC origin center radius = 0 ∧
        raySmallerRoot sqrtQ origin direction center radius ≤
          (-(rayQuadB origin center direction) +
              sqrtQ (rayDisc origin center direction radius)) /
            (2 * rayQuadA direction)) ∧
    (sqrtQ (rayDisc origin center direction radius) *
          sqrtQ (rayDisc origin center direction radius) =
        rayDisc origin center direction radius →
      0 ≤ sqrtQ (rayDisc origin center direction radius) →
      rayQuadC origin center radius < 0 →
      rayQuadA direction ≠ 0 →
      raySphereIntersect sqrtQ origin direction center radius maxDistance = none) := by
  have hAnn : 0 ≤ rayQuadA direction :=
    add_nonneg (add_nonneg (mul_self_nonneg _) (mul_self_nonneg _)) (mul_self_nonneg _)
  have hchar : raySphereIntersect sqrtQ origin direction center radius maxDistance =
      if 0 ≤ rayDisc origin center direction radius ∧
          0 < raySmallerRoot sqrtQ origin direction center radius ∧
          raySmallerRoot sqrtQ origin direction center radius < maxDistance
        then some (raySmallerRoot sqrtQ origin direction center radius)
        else none := by
    show (if rayDisc origin center direction radius < 0 then none
      else if 0 < raySmallerRoot sqrtQ origin direction center radius ∧
          raySmallerRoot sqrtQ origin direction center radius < maxDistance
        then some (raySmallerRoot sqrtQ origin direction center radius)
        else none) = _
    by_cases hd : rayDisc origin center direction radius < 0
    · rw [if_pos hd, if_neg]
      rintro ⟨h0, _⟩
      exact absurd hd (not_lt.mpr h0)
    · rw [if_neg hd]
      by_cases ht : 0 < raySmallerRoot sqrtQ origin direction center radius ∧
          raySmallerRoot sqrtQ origin direction center radius < maxDistance
      · rw [if_pos ht, if_pos ⟨not_lt.mp hd, ht.1, ht.2⟩]
      · rw [if_neg ht, if_neg]
        rintro ⟨_, h1, h2⟩
        exact ht ⟨h1, h2⟩
  refine ⟨hchar, ?_, ?_⟩
  · intro hsq hpos ha
    have hA : 0 < rayQuadA direction := lt_of_le_of_ne hAnn (Ne.symm ha)
    have hdisc : rayDisc origin center direction radius =
        rayQuadB origin center direction * rayQuadB origin center direction -
          4 * rayQuadA direction * rayQuadC origin center radius := rfl
    constructor
    · have hkey : rayQuadA direction *
            raySmallerRoot sqrtQ origin direction center radius *
            raySmallerRoot sqrtQ origin direction center radius +
          rayQuadB origin center direction *
            raySmallerRoot sqrtQ origin direction center radius +
          rayQuadC origin center radius =
          (sqrtQ (rayDisc origin center direction radius) *
              sqrtQ (rayDisc origin center direction radius) -
            (rayQuadB origin center direction * rayQuadB origin center direction -
              4 * rayQuadA direction * rayQuadC origin center radius)) /
            (4 * rayQuadA direction) := by
        unfold raySmallerRoot
        field_simp
        ring
      rw [hkey, hsq, hdisc]
      simp
    · have h2A : (0 : ℚ) < 2 * rayQuadA direction := by linarith
      unfold raySmallerRoot
      rw [div_le_div_iff₀ h2A h2A]
      nlinarith [hpos, hA]
  · intro hsq hpos hC ha
    have hA : 0 < rayQuadA direction := lt_of_le_of_ne hAnn (Ne.symm ha)
    have hdisc : rayDisc origin center direction radius =
        rayQuadB origin center direction * rayQuadB origin center direction -
          4 * rayQuadA direction * rayQuadC origin center radius := rfl
    have hgt : rayDisc origin center direction radius >
        rayQuadB origin center direction * rayQuadB origin center direction := by
      rw [hdisc]
      nlinarith [hA, hC]
    have hsgt : -(rayQuadB origin center direction) <
        sqrtQ (rayDisc origin center direction radius) := by
      by_contra hcon
      push_neg at hcon
      nlinarith [hpos, hcon, hsq, hgt]
    have ht1 : raySmallerRoot sqrtQ origin direction center radius < 0 := by
      unfold raySmallerRoot
      apply div_neg_of_neg_of_pos
      · linarith
      · linarith
    rw [hchar, if_neg]
    rintro ⟨_, h1, _⟩
    exact absurd h1 (not_lt.mpr (le_of_lt ht1))

theorem raySphereIntersect_behavior_witness :
    (2 : ℚ) * 2 = rayDisc ⟨0, 0, 0⟩ ⟨0, 0, 5⟩ ⟨0, 0, 1⟩ 1 ∧
      (0 : ℚ) ≤ 2 ∧ rayQuadA ⟨0, 0, 1⟩ ≠ 0 ∧
      (rayQuadA ⟨0, 0, 1⟩ * raySmallerRoot (fun _ => 2) ⟨0, 0, 0⟩ ⟨0, 0, 1⟩ ⟨0, 0, 5⟩ 1 *
            raySmallerRoot (fun _ => 2) ⟨0, 0, 0⟩ ⟨0, 0, 1⟩ ⟨0, 0, 5⟩ 1 +
          rayQuadB ⟨0, 0, 0⟩ ⟨0, 0, 5⟩ ⟨0, 0, 1⟩ *
            raySmallerRoot (fun _ => 2) ⟨0, 0, 0⟩ ⟨0, 0, 1⟩ ⟨0, 0, 5⟩ 1 +
          rayQuadC ⟨0, 0, 0⟩ ⟨0, 0, 5⟩ 1 = 0) ∧
      raySphereIntersect (fun _ => 2) ⟨0, 0, 0⟩ ⟨0, 0, 1⟩ ⟨0, 0, 5⟩ 1 10 = some 4 :=
  ⟨by norm_num [rayDisc, rayQuadA, rayQuadB, rayQuadC], by norm_num,
    by norm_num [rayQuadA],
    ((raySphereIntersect_behavior (fun _ => 2) ⟨0, 0, 0⟩ ⟨0, 0, 1⟩ ⟨0, 0, 5⟩ 1 10).2.1
      (by norm_num [rayDisc, rayQuadA, rayQuadB, rayQuadC]) (by norm_num)
      (by norm_num [rayQuadA])).1,
    by with_unfolding_all rfl⟩

/-! ### C5 — obstacles block bullets -/

/-- C5: for every bullet, if the obstacle ray march (run up to the
nearest candidate player distance `d_p`) reports a hit at distance
`d_o < d_p`, then `Room.handleShoot` emits no HitEvent for that bullet
and applies no damage to any player. -/
theorem obstacle_blocks_bullet (sqrtQ : ℚ → ℚ) (shooterId : ℕ)
    (origin direction : Vec3) (weapon : Weapon) (rewindTime : ℚ)
    (players : List Player) (obstacles : List Obstacle)
    (hhit : (raycast origin direction
      (nearestTargetHit sqrtQ shooterId origin direction weapon.range
        rewindTime players).2.1 obstacles).hit = true)
    (hlt : (raycast origin direction
        (nearestTargetHit sqrtQ shooterId origin direction weapon.range
          rewindTime players).2.1 obstacles).distance
      < (nearestTargetHit sqrtQ shooterId origin direction weapon.range
          rewindTime players).2.1) :
    fireBullet sqrtQ shooterId origin direction weapon rewindTime players obstacles
      = (players, none) := by
  simp [fireBullet, hhit, hlt]

theorem obstacle_blocks_bullet_witness :
    (raycast ⟨0, 8/5, 0⟩ ⟨0, 0, 1⟩
        (nearestTargetHit zeroOracle 1 ⟨0, 8/5, 0⟩ ⟨0, 0, 1⟩ rifleW.range 0
          [targetAtZ10]).2.1 [midObstacle]).hit = true ∧
      (raycast ⟨0, 8/5, 0⟩ ⟨0, 0, 1⟩
          (nearestTargetHit zeroOracle 1 ⟨0, 8/5, 0⟩ ⟨0, 0, 1⟩ rifleW.range 0
            [targetAtZ10]).2.1 [midObstacle]).distance
        < (nearestTargetHit zeroOracle 1 ⟨0, 8/5, 0⟩ ⟨0, 0, 1⟩ rifleW.range 0
            [targetAtZ10]).2.1 ∧
      fireBullet zeroOracle 1 ⟨0, 8/5, 0⟩ ⟨0, 0, 1⟩ rifleW 0 [targetAtZ10] [midObstacle]
        = ([targetAtZ10], none) :=
  ⟨by with_unfolding_all rfl,
    of_decide_eq_true (by with_unfolding_all rfl),
    obstacle_blocks_bullet zeroOracle 1 ⟨0, 8/5, 0⟩ ⟨0, 0, 1⟩ rifleW 0
      [targetAtZ10] [midObstacle]
      (by with_unfolding_all rfl)
      (of_decide_eq_true (by with_unfolding_all rfl))⟩

/-! ### C8 — malformed message handling -/

/-- C8: the spec's §7 policy (drop malformed messages, never throw into
the room) is the documented intent, but the code violates it: a
truncated 2-byte INPUT frame `[0x02, 0x00]` makes `decodeInput` perform
an out-of-range `DataView` read, which throws a `RangeError`, and the
`message` handler in `index.ts` has no `try`/`catch`, so the exception
propagates out of the handler instead of the message being dropped. -/
theorem decodeInput_truncated_throws :
    decodeInput (fun _ => 0) (fun _ => 0) [2, 0] = .error () ∧
      handleInputMessage (fun _ => 0) (fun _ => 0) 1 [] [2, 0] = .error () :=
  ⟨rfl, rfl⟩

/-! ### C7 — history ring query -/

theorem histPhys_pred (p : Player) (ℓ : ℕ) (hℓ : 1 ≤ ℓ) :
    (histPhys p ℓ + HISTORY_CAPACITY - 1) % HISTORY_CAPACITY = histPhys p (ℓ - 1) := by
  unfold histPhys
  simp only [HISTORY_CAPACITY]
  omega

theorem histPhys_newest (p : Player) (h1 : 1 ≤ p.historySize)
    (h2 : p.historySize ≤ HISTORY_CAPACITY) :
    (p.historyHead + HISTORY_CAPACITY - 1) % HISTORY_CAPACITY =
      histPhys p (p.historySize - 1) := by
  unfold histPhys
  simp only [HISTORY_CAPACITY] at h2 ⊢
  omega

theorem histTime_mono (p : Player) (hsorted : HistSorted p) (i j : ℕ)
    (hij : i ≤ j) (hj : j < p.historySize) : histTime p i ≤ histTime p j := by
  induction j with
  | zero =>
    have h0 : i = 0 := Nat.le_zero.mp hij
    subst h0
    exact le_refl _
  | succ j ih =>
    by_cases hc : i = j + 1
    · subst hc
      exact le_refl _
    · have hij' : i ≤ j := by omega
      exact le_trans (ih hij' (by omega)) (hsorted j hj)

theorem historyScan_oldest (p : Player) (t : ℚ) (hsorted : HistSorted p)
    (ht0 : t < histTime p 0) :
    ∀ k, k < p.historySize → t < histTime p k →
      historyScan p t k (histPhys p k) = histSample p 0 := by
  intro k
  induction k with
  | zero => intro _ _; rfl
  | succ k ih =>
    intro hkN htk
    have hpred : (histPhys p (k + 1) + HISTORY_CAPACITY - 1) % HISTORY_CAPACITY =
        histPhys p k := histPhys_pred p (k + 1) (Nat.succ_le_succ (Nat.zero_le k))
    simp only [historyScan, hpred]
    have htk' : t < histTime p k :=
      lt_of_lt_of_le ht0 (histTime_mono p hsorted 0 k (Nat.zero_le k) (by omega))
    have hbr : ¬ (t ≤ p.historyTime (histPhys p (k + 1)) ∧
        t ≥ p.historyTime (histPhys p k)) := by
      rintro ⟨_, h2⟩
      exact absurd h2 (not_le.mpr htk')
    rw [if_neg hbr]
    have hnb : ¬ (p.historyTime (histPhys p (k + 1)) < t - 1000) := by
      have hcur : t < p.historyTime (histPhys p (k + 1)) := htk
      push_neg
      linarith
    rw [if_neg hnb]
    exact ih (by omega) htk'

theorem historyScan_bracket (p : Player) (t : ℚ) (hsorted : HistSorted p)
    (m : ℕ) (hm1 : m + 1 < p.historySize)
    (hTm : histTime p m ≤ t) (hTm1 : t < histTime p (m + 1)) :
    ∀ k, m < k → k < p.historySize → t < histTime p k →
      historyScan p t k (histPhys p k) =
        lerpV (histSample p m) (histSample p (m + 1))
          ((t - histTime p m) / (histTime p (m + 1) - histTime p m)) := by
  intro k
  induction k with
  | zero => intro h _ _; exact absurd h (Nat.not_lt_zero m)
  | succ k ih =>
    intro hmk hkN htk
    have hpred : (histPhys p (k + 1) + HISTORY_CAPACITY - 1) % HISTORY_CAPACITY =
        histPhys p k := histPhys_pred p (k + 1) (Nat.succ_le_succ (Nat.zero_le k))
    simp only [historyScan, hpred]
    by_cases hbr : t ≤ p.historyTime (histPhys p (k + 1)) ∧
        t ≥ p.historyTime (histPhys p k)
    · rw [if_pos hbr]
      have hk_eq : k = m := by
        by_contra hne
        have hmk' : m + 1 ≤ k := by omega
        have hmono : histTime p (m + 1) ≤ histTime p k :=
          histTime_mono p hsorted (m + 1) k hmk' (by omega)
        have hlt : t < histTime p k := lt_of_lt_of_le hTm1 hmono
        exact absurd hbr.2 (not_le.mpr hlt)
      subst hk_eq
      rfl
    · rw [if_neg hbr]
      have hnb : ¬ (p.historyTime (histPhys p (k + 1)) < t - 1000) := by
        have hcur : t < p.historyTime (histPhys p (k + 1)) := htk
        push_neg
        linarith
      rw [if_neg hnb]
      have htk' : t < histTime p k := by
        rcases not_and_or.mp hbr with h1 | h2
        · exact absurd (le_of_lt htk) h1
        · push_neg at h2
          exact h2
      have hmk2 : m < k := by
        by_contra hc
        have hkm : k = m := by omega
        subst hkm
        exact absurd hTm (not_le.mpr htk')
      exact ih hmk2 (by omega) htk'

theorem exists_crossing (p : Player) (t : ℚ) (h0 : histTime p 0 ≤ t) :
    ∀ n, n < p.historySize → t < histTime p n →
      ∃ m, m + 1 ≤ n ∧ histTime p m ≤ t ∧ t < histTime p (m + 1) := by
  intro n
  induction n with
  | zero => intro _ h; exact absurd h0 (not_le.mpr h)
  | succ n ih =>
    intro hnN htn
    by_cases hn : histTime p n ≤ t
    · exact ⟨n, le_refl _, hn, htn⟩
    · push_neg at hn
      obtain ⟨m, hm, h1, h2⟩ := ih (by omega) hn
      exact ⟨m, by omega, h1, h2⟩

/-- C7: for every player whose ring holds `historySize ≤ 300` samples
with non-decreasing logical timestamps, the query `getPositionAt t`
fails exactly on an empty ring; returns the newest sample when `t` is
at or after the newest timestamp; returns the oldest stored sample when
`t` is older than the oldest timestamp; and otherwise interpolates
linearly between the first bracketing adjacent pair scanned back from
the newest (every strictly newer sample lies strictly after `t`), with
an interpolation parameter in `[0, 1)` — so the result is a convex
combination of two adjacent stored samples and lies in the convex hull
of the stored positions. -/
theorem getPositionAt_spec (p : Player) (t : ℚ)
    (hsize : p.historySize ≤ HISTORY_CAPACITY) (hsorted : HistSorted p) :
    (p.historySize = 0 → getPositionAt p t = none) ∧
    (p.historySize ≠ 0 →
      (histTime p (p.historySize - 1) ≤ t →
        getPositionAt p t = some (histSample p (p.historySize - 1))) ∧
      (t < histTime p 0 → getPositionAt p t = some (histSample p 0)) ∧
      (histTime p 0 ≤ t → t < histTime p (p.historySize - 1) →
        ∃ m, m + 1 ≤ p.historySize - 1 ∧
          histTime p m ≤ t ∧ t < histTime p (m + 1) ∧
          (∀ j, m < j → j < p.historySize → t < histTime p j) ∧
          getPositionAt p t =
            some (lerpV (histSample p m) (histSample p (m + 1))
              ((t - histTime p m) / (histTime p (m + 1) - histTime p m))) ∧
          0 ≤ (t - histTime p m) / (histTime p (m + 1) - histTime p m) ∧
          (t - histTime p m) / (histTime p (m + 1) - histTime p m) < 1)) := by
  constructor
  · intro h0
    simp [getPositionAt, h0]
  · intro hN
    have h1 : 1 ≤ p.historySize := Nat.one_le_iff_ne_zero.mpr hN
    have hnewest := histPhys_newest p h1 hsize
    refine ⟨?_, ?_, ?_⟩
    · intro hge
      have hge' : t ≥ p.historyTime (histPhys p (p.historySize - 1)) := hge
      simp only [getPositionAt, hnewest]
      rw [if_neg hN, if_pos hge']
      rfl
    · intro hlt
      have hmono : histTime p 0 ≤ histTime p (p.historySize - 1) :=
        histTime_mono p hsorted 0 (p.historySize - 1) (Nat.zero_le _) (by omega)
      have hfail : ¬ (t ≥ p.historyTime (histPhys p (p.historySize - 1))) :=
        not_le.mpr (lt_of_lt_of_le hlt hmono)
      simp only [getPositionAt, hnewest]
      rw [if_neg hN, if_neg hfail]
      exact congrArg some
        (historyScan_oldest p t hsorted hlt (p.historySize - 1) (by omega)
          (lt_of_lt_of_le hlt hmono))
    · intro h0 hlt
      obtain ⟨m, hm1, hTm, hTm1⟩ :=
        exists_crossing p t h0 (p.historySize - 1) (by omega) hlt
      have hm1N : m + 1 < p.historySize := by omega
      have hd : 0 < histTime p (m + 1) - histTime p m := by linarith
      refine ⟨m, hm1, hTm, hTm1, ?_, ?_, ?_, ?_⟩
      · intro j hmj hjN
        exact lt_of_lt_of_le hTm1 (histTime_mono p hsorted (m + 1) j hmj hjN)
      · have hfail : ¬ (t ≥ p.historyTime (histPhys p (p.historySize - 1))) :=
          not_le.mpr hlt
        simp only [getPositionAt, hnewest]
        rw [if_neg hN, if_neg hfail]
        exact congrArg some
          (historyScan_bracket p t hsorted m hm1N hTm hTm1 (p.historySize - 1)
            (by omega) (by omega) hlt)
      · exact div_nonneg (by linarith) (le_of_lt hd)
      · exact (div_lt_one hd).mpr (by linarith)

/-- A player fixture with three history samples: positions
(0,0,0) at time 100, (0,0,6) at time 200, (0,0,10) at time 300, stored
at physical slots 0, 1, 2 with head 3. -/
def historyPlayer : Player :=
  { basePlayer with
    historyZ := fun i => if i = 0 then 0 else if i = 1 then 6 else if i = 2 then 10 else 0
    historyTime := fun i => if i = 0 then 100 else if i = 1 then 200 else if i = 2 then 300 else 0
    historyHead := 3
    historySize := 3 }

theorem getPositionAt_spec_witness :
    historyPlayer.historySize ≤ HISTORY_CAPACITY ∧
      HistSorted historyPlayer ∧
      histTime historyPlayer 0 ≤ 150 ∧
      (150 : ℚ) < histTime historyPlayer (historyPlayer.historySize - 1) ∧
      ∃ m, m + 1 ≤ historyPlayer.historySize - 1 ∧
        histTime historyPlayer m ≤ 150 ∧ (150 : ℚ) < histTime historyPlayer (m + 1) ∧
        (∀ j, m < j → j < historyPlayer.historySize → (150 : ℚ) < histTime historyPlayer j) ∧
        getPositionAt historyPlayer 150 =
          some (lerpV (histSample historyPlayer m) (histSample historyPlayer (m + 1))
            ((150 - histTime historyPlayer m) /
              (histTime historyPlayer (m + 1) - histTime historyPlayer m))) ∧
        0 ≤ (150 - histTime historyPlayer m) /
            (histTime historyPlayer (m + 1) - histTime historyPlayer m) ∧
        (150 - histTime historyPlayer m) /
            (histTime historyPlayer (m + 1) - histTime historyPlayer m) < 1 :=
  have hsorted : HistSorted historyPlayer := by
    intro i hi
    have hi2 : i < 2 := by
      simp only [historyPlayer, basePlayer] at hi
      omega
    interval_cases i <;>
      norm_num [histTime, histPhys, historyPlayer, basePlayer, HISTORY_CAPACITY]
  ⟨by norm_num [historyPlayer, basePlayer, HISTORY_CAPACITY],
    hsorted,
    by norm_num [histTime, histPhys, historyPlayer, basePlayer, HISTORY_CAPACITY],
    by norm_num [histTime, histPhys, historyPlayer, basePlayer, HISTORY_CAPACITY],
    ((getPositionAt_spec historyPlayer 150
        (by norm_num [historyPlayer, basePlayer, HISTORY_CAPACITY]) hsorted).2
      (by norm_num [historyPlayer, basePlayer])).2.2
      (by norm_num [histTime, histPhys, historyPlayer, basePlayer, HISTORY_CAPACITY])
      (by norm_num [histTime, histPhys, historyPlayer, basePlayer, HISTORY_CAPACITY])⟩

/-! ### C9 — inputs have no effect on dead players -/

/-- C9: `processInput` on a dead player returns immediately, leaving the
whole player state — position, velocity, yaw, pitch, weapon, isShooting,
grounded and lastProcessedInput — unchanged, for every input record,
delta and obstacle set (and every `Math` oracle). -/
theorem processInput_dead_noop (sinQ cosQ sqrtQ : ℚ → ℚ) (p : Player)
    (input : InputData) (deltaTime : ℚ) (obstacles : List Obstacle)
    (h : p.isDead = true) :
    processInput sinQ cosQ sqrtQ p input deltaTime obstacles = p := by
  unfold processInput
  simp [h]

theorem processInput_dead_noop_witness :
    ({ basePlayer with isDead := true } : Player).isDead = true ∧
      processInput zeroOracle zeroOracle zeroOracle
        { basePlayer with isDead := true } (idleInput 7) (1/60) [] =
        { basePlayer with isDead := true } :=
  ⟨rfl, processInput_dead_noop zeroOracle zeroOracle zeroOracle _ (idleInput 7) (1/60) [] rfl⟩

/-! ### C10 — health bounds and single death transition -/

/-- C10: `takeDamage` on a dead player returns `false` and changes
nothing; on a live player with non-negative damage and in-range health
it keeps health within `[0, MAX_HEALTH]`, sets `isDead` exactly when the
clamped health reaches 0 (equivalently, when `health - damage ≤ 0`),
reports the kill exactly on that transition, and increments `deaths`
exactly when it reports a kill — so a death transition is counted once
and `Room.handleShoot` (which notifies the mode only when `takeDamage`
returns `true`) notifies at most once. -/
theorem takeDamage_spec (p : Player) (damage : ℚ) :
    (p.isDead = true → takeDamage p damage = (false, p)) ∧
    (p.isDead = false → 0 ≤ damage → p.health ≤ MAX_HEALTH →
      0 ≤ (takeDamage p damage).2.health ∧
      (takeDamage p damage).2.health ≤ MAX_HEALTH ∧
      ((takeDamage p damage).2.isDead = true ↔ (takeDamage p damage).2.health = 0) ∧
      ((takeDamage p damage).2.isDead = true ↔ p.health - damage ≤ 0) ∧
      (takeDamage p damage).1 = (takeDamage p damage).2.isDead ∧
      (takeDamage p damage).2.deaths =
        p.deaths + (if (takeDamage p damage).1 then 1 else 0) ∧
      ((takeDamage p damage).1 = false →
        (takeDamage p damage).2 = { p with health := p.health - damage })) := by
  constructor
  · intro h
    unfold takeDamage
    simp [h]
  · intro h hd hmax
    have hM : MAX_HEALTH = 100 := rfl
    simp only [takeDamage, h, Bool.false_eq_true, if_false]
    by_cases hc : p.health - damage ≤ 0
    · rw [if_pos hc]
      refine ⟨le_refl 0, by norm_num [MAX_HEALTH], by simp, ?_, rfl, by simp, by simp⟩
      exact ⟨fun _ => hc, fun _ => rfl⟩
    · rw [if_neg hc]
      push_neg at hc
      refine ⟨le_of_lt hc, ?_, ?_, ?_, rfl, by simp, fun _ => rfl⟩
      · show p.health - damage ≤ MAX_HEALTH
        rw [hM] at hmax ⊢
        linarith
      · constructor
        · intro hfalse
          exact absurd hfalse (by simp [h])
        · intro h0
          exact absurd h0 (ne_of_gt hc)
      · constructor
        · intro hfalse
          exact absurd hfalse (by simp [h])
        · intro hle
          exact absurd hle (not_le.mpr hc)

theorem canShoot_true_effect (p : Player) (t : ℚ) (h : (canShoot p t).1 = true) :
    (canShoot p t).2.lastShootTime = t ∧
      ∃ w, WEAPONS[p.weapon]? = some w ∧ t - p.lastShootTime ≥ w.fireRate := by
  by_cases hd : p.isDead = true
  · simp [canShoot, hd] at h
  · rw [Bool.not_eq_true] at hd
    by_cases hs : p.isShooting = true
    · cases hw : WEAPONS[p.weapon]? with
      | none => simp [canShoot, hd, hs, hw] at h
      | some w =>
        by_cases hr : t - p.lastShootTime ≥ w.fireRate
        · have hres : canShoot p t = (true, { p with lastShootTime := t }) := by
            simp [canShoot, hd, hs, hw, hr]
          rw [hres]
          exact ⟨rfl, w, rfl, hr⟩
        · simp [canShoot, hd, hs, hw, hr] at h
    · rw [Bool.not_eq_true] at hs
      simp [canShoot, hd, hs] at h

theorem canShoot_false_noop (p : Player) (t : ℚ) (h : (canShoot p t).1 = false) :
    (canShoot p t).2 = p := by
  by_cases hd : p.isDead = true
  · simp [canShoot, hd]
  · rw [Bool.not_eq_true] at hd
    by_cases hs : p.isShooting = true
    · cases hw : WEAPONS[p.weapon]? with
      | none => simp [canShoot, hd, hs, hw]
      | some w =>
        by_cases hr : t - p.lastShootTime ≥ w.fireRate
        · simp [canShoot, hd, hs, hw, hr] at h
        · simp [canShoot, hd, hs, hw, hr]
    · rw [Bool.not_eq_true] at hs
      simp [canShoot, hd, hs]

theorem shotStep_false_lastShootTime (q : Player) (c : ShotCall)
    (h : (shotStep q c).1 = false) :
    (shotStep q c).2.lastShootTime = q.lastShootTime := by
  unfold shotStep at h ⊢
  rw [canShoot_false_noop _ _ h]

theorem runCalls_no_success_lastShootTime (p : Player) (cs : List ShotCall)
    (h : (runCalls p cs).2 = 0) :
    (runCalls p cs).1.lastShootTime = p.lastShootTime := by
  induction cs generalizing p with
  | nil => rfl
  | cons c cs ih =>
    simp only [runCalls] at h ⊢
    by_cases hs : (shotStep p c).1 = true
    · simp [hs] at h
    · rw [Bool.not_eq_true] at hs
      simp only [hs, Bool.false_eq_true, if_false, Nat.zero_add] at h ⊢
      rw [ih _ h, shotStep_false_lastShootTime p c hs]

/-! ### C6 — fire-rate gate -/

/-- C6: for any player, any successful shot at call `c₁`, any run of
attempts with no success in between, and any further attempt `c₂` with
weapon `W` that also succeeds, the two successes are at least
`W.fireRate` milliseconds apart on the server clock; moreover any
attempt the gate rejects leaves `lastShootTime` unchanged. -/
theorem fire_rate_bound (p : Player) (c₁ c₂ : ShotCall) (mid : List ShotCall) (w : Weapon)
    (h1 : (shotStep p c₁).1 = true)
    (h2 : (runCalls (shotStep p c₁).2 mid).2 = 0)
    (hw : WEAPONS[c₂.weapon]? = some w)
    (h3 : (shotStep (runCalls (shotStep p c₁).2 mid).1 c₂).1 = true) :
    c₂.time - c₁.time ≥ w.fireRate ∧
      ∀ q c, (shotStep q c).1 = false →
        (shotStep q c).2.lastShootTime = q.lastShootTime := by
  refine ⟨?_, shotStep_false_lastShootTime⟩
  have e1 : (shotStep p c₁).2.lastShootTime = c₁.time :=
    (canShoot_true_effect _ _ h1).1
  have e2 : (runCalls (shotStep p c₁).2 mid).1.lastShootTime = c₁.time := by
    rw [runCalls_no_success_lastShootTime _ _ h2, e1]
  obtain ⟨_, w', hw', hr⟩ := canShoot_true_effect _ _ h3
  have hww : w' = w := by
    have : WEAPONS[c₂.weapon]? = some w' := hw'
    rw [hw] at this
    exact (Option.some_injective _ this).symm
  rw [hww] at hr
  calc c₂.time - c₁.time
      = c₂.time - (runCalls (shotStep p c₁).2 mid).1.lastShootTime := by rw [e2]
    _ ≥ w.fireRate := hr

theorem fire_rate_bound_witness :
    (shotStep basePlayer ⟨0, true, 1000⟩).1 = true ∧
      (runCalls (shotStep basePlayer ⟨0, true, 1000⟩).2 [⟨0, true, 1200⟩]).2 = 0 ∧
      WEAPONS[(0 : ℕ)]? = some ⟨25, 400, 100, 1/50, false, 1⟩ ∧
      (shotStep (runCalls (shotStep basePlayer ⟨0, true, 1000⟩).2
        [⟨0, true, 1200⟩]).1 ⟨0, true, 1400⟩).1 = true ∧
      (1400 : ℚ) - 1000 ≥ (Weapon.mk 25 400 100 (1/50) false 1).fireRate :=
  ⟨by norm_num [shotStep, canShoot, basePlayer, WEAPONS],
    by norm_num [runCalls, shotStep, canShoot, basePlayer, WEAPONS],
    rfl,
    by norm_num [runCalls, shotStep, canShoot, basePlayer, WEAPONS],
    (fire_rate_bound basePlayer ⟨0, true, 1000⟩ ⟨0, true, 1400⟩ [⟨0, true, 1200⟩]
      ⟨25, 400, 100, 1/50, false, 1⟩
      (by norm_num [shotStep, canShoot, basePlayer, WEAPONS])
      (by norm_num [runCalls, shotStep, canShoot, basePlayer, WEAPONS])
      rfl
      (by norm_num [runCalls, shotStep, canShoot, basePlayer, WEAPONS])).1⟩

theorem takeDamage_spec_witness :
    basePlayer.isDead = false ∧ 0 ≤ (25 : ℚ) ∧ basePlayer.health ≤ MAX_HEALTH ∧
      (0 ≤ (takeDamage basePlayer 25).2.health ∧
        (takeDamage basePlayer 25).2.health ≤ MAX_HEALTH) :=
  ⟨rfl, by norm_num, by norm_num [basePlayer, MAX_HEALTH],
    ((takeDamage_spec basePlayer 25).2 rfl (by norm_num)
      (by norm_num [basePlayer, MAX_HEALTH])).1,
    ((takeDamage_spec basePlayer 25).2 rfl (by norm_num)
      (by norm_num [basePlayer, MAX_HEALTH])).2.1⟩
